import Mathlib

/-!
A shallow embedding of `extensions/amp-animation/0.1/css-expr-ast.js`: a typed
expression evaluator for a restricted CSS value grammar (numbers, percentages,
lengths, angles, times, function calls, `var()` references and `calc()`
arithmetic).  JS numbers are modelled as exact rationals (`ℚ`); the only
non-finite value reachable in this fragment is the `1 / 0` produced by a
`calc()` division, which is modelled explicitly where it occurs.  The mutable
dimension stack of the evaluation context is modelled by explicit state
passing, with ghost counters recording how often `pushDimension`,
`popDimension` and `resolveUrl` are invoked.  Fallible evaluation returns an
explicit result type distinguishing a value, CSS's "no value" (`null`), and a
thrown `Error`; a fuel argument bounds the recursion through `var()`
indirection, which the source does not bound.
-/

/-- The exact rational value of the IEEE-754 double `Math.PI`
(`884279719003555 * 2 ^ (-48)`). -/
def mathPI : ℚ := 884279719003555 / 281474976710656

/-- Source: `DEG_TO_RAD = 2 * Math.PI / 360` (modulo the final float rounding,
on which nothing below depends). -/
def DEG_TO_RAD : ℚ := 2 * mathPI / 360

/-- Source: `GRAD_TO_RAD = Math.PI / 200` (modulo the final float rounding). -/
def GRAD_TO_RAD : ℚ := mathPI / 200

/-- JS `String.prototype.toLowerCase()` on the ASCII names and units of this
grammar: character-wise lower-casing. -/
def jsToLowerCase (s : String) : String := ⟨s.data.map Char.toLower⟩

/-- JS `String.prototype.toUpperCase()` on the ASCII suffixes of this grammar:
character-wise upper-casing. -/
def jsToUpperCase (s : String) : String := ⟨s.data.map Char.toUpper⟩

/-- Source: `FINAL_URL_RE = /^(data|https)\:/i` together with its only use
`FINAL_URL_RE.test(url)`: a case-insensitive prefix test. -/
def FINAL_URL_RE_test (s : String) : Bool :=
  List.isPrefixOf "data:".data (jsToLowerCase s).data ||
  List.isPrefixOf "https:".data (jsToLowerCase s).data

/-- The numeric leaf values: `CssNumberNode` (`NUM`), `CssPercentNode` (`PRC`),
`CssLengthNode` (`LEN`), `CssAngleNode` (`ANG`), `CssTimeNode` (`TME`), each a
subclass of the abstract `CssNumericNode` carrying `type_`, `num_` and
`units_`. -/
inductive CssNumeric where
  | num (n : ℚ)
  | percent (n : ℚ)
  | length (n : ℚ) (units : String)
  | angle (n : ℚ) (units : String)
  | time (n : ℚ) (units : String)
deriving DecidableEq, Repr

/-- The CSS expression nodes of the source, one constructor per class.
`numeric` folds the five `CssNumericNode` subclasses; the remaining
constructors are `CssPassthroughNode`, `CssConcatNode`, `CssUrlNode`,
`CssFuncNode` (of which `CssTranslateNode` is a constructor-only
specialization), `CssVarNode`, `CssCalcNode`, `CssCalcSumNode` and
`CssCalcProductNode`. -/
inductive CssNode where
  | passthrough (css : String)
  | concat (array : List CssNode)
  | url (url : String)
  | numeric (x : CssNumeric)
  | func (name : String) (args : List CssNode) (dimensions : Option (List String))
  | varRef (varName : String) (def_ : Option CssNode)
  | calcWrap (expr : CssNode)
  | calcSum (left right : CssNode) (op : String)
  | calcProduct (left right : CssNode) (op : String)
deriving Repr

/-- Constructor `CssPassthroughNode(css)`. -/
def CssPassthroughNode (css : String) : CssNode := .passthrough css

/-- Constructor `CssConcatNode(opt_array)`. -/
def CssConcatNode (array : List CssNode) : CssNode := .concat array

/-- Constructor `CssUrlNode(url)`. -/
def CssUrlNode (url : String) : CssNode := .url url

/-- Constructor `CssNumberNode(num)`: type `NUM`, empty units. -/
def CssNumberNode (num : ℚ) : CssNode := .numeric (.num num)

/-- Constructor `CssPercentNode(num)`: type `PRC`, units `%`. -/
def CssPercentNode (num : ℚ) : CssNode := .numeric (.percent num)

/-- Constructor `CssLengthNode(num, units)`; the `CssNumericNode` constructor
lower-cases the units. -/
def CssLengthNode (num : ℚ) (units : String) : CssNode :=
  .numeric (.length num (jsToLowerCase units))

/-- Constructor `CssAngleNode(num, units)`; units are lower-cased. -/
def CssAngleNode (num : ℚ) (units : String) : CssNode :=
  .numeric (.angle num (jsToLowerCase units))

/-- Constructor `CssTimeNode(num, units)`; units are lower-cased. -/
def CssTimeNode (num : ℚ) (units : String) : CssNode :=
  .numeric (.time num (jsToLowerCase units))

/-- Constructor `CssFuncNode(name, args, opt_dimensions)`; the name is
lower-cased and the dimensions default to `null`. -/
def CssFuncNode (name : String) (args : List CssNode)
    (dimensions : Option (List String)) : CssNode :=
  .func (jsToLowerCase name) args dimensions

/-- Constructor `CssVarNode(varName, opt_def)`. -/
def CssVarNode (varName : String) (def_ : Option CssNode) : CssNode :=
  .varRef varName def_

/-- Constructor `CssCalcNode(expr)`. -/
def CssCalcNode (expr : CssNode) : CssNode := .calcWrap expr

/-- Constructor `CssCalcSumNode(left, right, op)`, `op` being `+` or `-`. -/
def CssCalcSumNode (left right : CssNode) (op : String) : CssNode :=
  .calcSum left right op

/-- Constructor `CssCalcProductNode(left, right, op)`, `op` being `*` or `/`. -/
def CssCalcProductNode (left right : CssNode) (op : String) : CssNode :=
  .calcProduct left right op

/-- Constructor `CssTranslateNode(suffix, args)`: a `CssFuncNode` named
`translate<SUFFIX>` with the dimension tags fixed by the suffix. -/
def CssTranslateNode (suffix : String) (args : List CssNode) : CssNode :=
  CssFuncNode ("translate" ++ (jsToUpperCase suffix)) args
    (if suffix == "" then some ["w", "h"]
     else if suffix == "x" then some ["w"]
     else if suffix == "y" then some ["h"]
     else if suffix == "z" then some ["z"]
     else if suffix == "3d" then some ["w", "h", "z"]
     else none)

/-- Accessor `type_` of `CssNumericNode` as set by the five subclass
constructors. -/
def CssNumeric.type_ : CssNumeric → String
  | .num _ => "NUM"
  | .percent _ => "PRC"
  | .length _ _ => "LEN"
  | .angle _ _ => "ANG"
  | .time _ _ => "TME"

/-- Accessor `num_` of `CssNumericNode`. -/
def CssNumeric.num_ : CssNumeric → ℚ
  | .num n => n
  | .percent n => n
  | .length n _ => n
  | .angle n _ => n
  | .time n _ => n

/-- Accessor `units_` of `CssNumericNode` as set by the subclass
constructors (`''` for numbers, `'%'` for percents). -/
def CssNumeric.units_ : CssNumeric → String
  | .num _ => ""
  | .percent _ => "%"
  | .length _ u => u
  | .angle _ u => u
  | .time _ u => u

/-- The `instanceof CssNumberNode` test used by `CssCalcProductNode.calc`. -/
def CssNumeric.isNumber : CssNumeric → Bool
  | .num _ => true
  | _ => false

/-- The `instanceof CssPercentNode` test used by `CssCalcSumNode.calc`. -/
def CssNumeric.isPercent : CssNumeric → Bool
  | .percent _ => true
  | _ => false

/-- Method `createSameUnits(num)`: each subclass rebuilds itself with a new
magnitude (the length/angle/time constructors re-lower-case the units, a no-op
on the already-lower-cased stored units). -/
def CssNumeric.createSameUnits : CssNumeric → ℚ → CssNumeric
  | .num _, n => .num n
  | .percent _, n => .percent n
  | .length _ u, n => .length n (jsToLowerCase u)
  | .angle _ u, n => .angle n (jsToLowerCase u)
  | .time _ u, n => .time n (jsToLowerCase u)

/-- The evaluation context of the source's `CssContext` interface.  The
environment queries are pure fields; the mutable dimension stack is the
`dimStack` field, threaded through evaluation.  `pushes`, `pops` and
`urlCalls` are ghost counters recording how many times `pushDimension`,
`popDimension` and `resolveUrl` have been invoked. -/
structure CssContext where
  resolveUrl : String → String
  getVar : String → Option CssNode
  getCurrentFontSize : ℚ
  getRootFontSize : ℚ
  getViewportSize : ℚ × ℚ
  getCurrentElementSize : ℚ × ℚ
  dimStack : List String
  pushes : Nat
  pops : Nat
  urlCalls : Nat

/-- Modelled from the spec: `getDimension()` returns the dimension tag
currently on top of the context's dimension stack, or `null` when the stack is
empty (the host implementation of the `CssContext` interface is outside this
file's source). -/
def CssContext.getDimension (ctx : CssContext) : Option String :=
  ctx.dimStack.head?

/-- Modelled from the spec: `pushDimension(dim)` pushes a dimension tag onto
the context's dimension stack.  The ghost counter `pushes` records the call. -/
def CssContext.pushDimension (ctx : CssContext) (dim : String) : CssContext :=
  { ctx with dimStack := dim :: ctx.dimStack, pushes := ctx.pushes + 1 }

/-- Modelled from the spec: `popDimension()` pops the top of the context's
dimension stack.  The ghost counter `pops` records the call. -/
def CssContext.popDimension (ctx : CssContext) : CssContext :=
  { ctx with dimStack := ctx.dimStack.tail, pops := ctx.pops + 1 }

/-- Message built by the source helper `unknownUnits(units)`. -/
def unknownUnits (units : String) : String := "unknown units: " ++ units

/-- Method `norm(context)`: `CssNumericNode.norm` is the identity (numbers and
percents); `CssLengthNode.norm` converts `em`/`rem` (font-relative) and
`vw`/`vh`/`vmin`/`vmax` (viewport-relative) to `px` and throws `unknownUnits`
otherwise; `CssAngleNode.norm` converts `deg`/`grad` to `rad`;
`CssTimeNode.norm` converts `s` to `ms`.  A thrown `Error` is an `Except`
error carrying the message. -/
def CssNumeric.norm (x : CssNumeric) (ctx : CssContext) :
    Except String CssNumeric :=
  match x with
  | .length n u =>
    if u == "px" then .ok (.length n u)
    else if u == "em" || u == "rem" then
      let fontSize := if u == "em" then ctx.getCurrentFontSize
                      else ctx.getRootFontSize
      .ok (.length (n * fontSize) "px")
    else if u == "vw" || u == "vh" || u == "vmin" || u == "vmax" then
      let vp := ctx.getViewportSize
      let vw := vp.1 * n / 100
      let vh := vp.2 * n / 100
      let num := if u == "vw" then vw
                 else if u == "vh" then vh
                 else if u == "vmin" then min vw vh
                 else if u == "vmax" then max vw vh
                 else 0
      .ok (.length num "px")
    else .error (unknownUnits u)
  | .angle n u =>
    if u == "rad" then .ok (.angle n u)
    else if u == "deg" then .ok (.angle (n * DEG_TO_RAD) "rad")
    else if u == "grad" then .ok (.angle (n * GRAD_TO_RAD) "rad")
    else .error (unknownUnits u)
  | .time n u =>
    if u == "ms" then .ok (.time n u)
    else if u == "s" then .ok (.time (n * 1000) "ms")
    else .error (unknownUnits u)
  | other => .ok other

/-- Method `calcPercent(percent, context)`: only `CssLengthNode` overrides the
abstract default, resolving the percentage against the element size along the
dimension on top of the context's dimension stack (`w` → width, `h` → height,
anything else → 0); every other numeric category throws. -/
def CssNumeric.calcPercent (x : CssNumeric) (percent : ℚ) (ctx : CssContext) :
    Except String CssNumeric :=
  match x with
  | .length _ _ =>
    let dim := ctx.getDimension
    let size := ctx.getCurrentElementSize
    let side := if dim == some "w" then size.1
                else if dim == some "h" then size.2
                else 0
    .ok (.length (side * percent / 100) "px")
  | other => .error ("cannot calculate percent for " ++ other.type_)

mutual
/-- Method `isConst()`: `CssNode`'s base implementation returns `true`
(passthrough and numeric leaves); `CssConcatNode` and `CssFuncNode` reduce the
conjunction of their children; `CssUrlNode` is constant iff the url is empty
or already matches `FINAL_URL_RE`; `CssVarNode`, `CssCalcNode`,
`CssCalcSumNode` and `CssCalcProductNode` are never constant. -/
def CssNode.isConst : CssNode → Bool
  | .passthrough _ => true
  | .concat arr => CssNode.allConst arr
  | .url u => u == "" || FINAL_URL_RE_test u
  | .numeric _ => true
  | .func _ args _ => CssNode.allConst args
  | .varRef _ _ => false
  | .calcWrap _ => false
  | .calcSum _ _ _ => false
  | .calcProduct _ _ _ => false

/-- The `array.reduce((acc, node) => acc && node.isConst(), true)` conjunction
used by `CssConcatNode.isConst` and `CssFuncNode.isConst`. -/
def CssNode.allConst : List CssNode → Bool
  | [] => true
  | x :: xs => x.isConst && CssNode.allConst xs
end

/-- Formatting of a JS number for `CssNumericNode.css`; integers print without
a fractional part. -/
def jsNumStr (q : ℚ) : String :=
  if q.den == 1 then toString q.num else toString q

/-- Method `css()` of `CssNumericNode`: the magnitude followed by the units. -/
def CssNumeric.css (x : CssNumeric) : String :=
  jsNumStr x.num_ ++ x.units_

mutual
/-- Method `css()`: the CSS serialization of each node class. -/
def CssNode.css : CssNode → String
  | .passthrough s => s
  | .concat arr => String.intercalate " " (CssNode.cssList arr)
  | .url u => if u == "" then "" else "url(\"" ++ u ++ "\")"
  | .numeric x => x.css
  | .func name args _ =>
    name ++ "(" ++ String.intercalate "," (CssNode.cssList args) ++ ")"
  | .varRef name d =>
    "var(" ++ name ++
      (match d with
       | some dn => "," ++ CssNode.css dn
       | none => "") ++ ")"
  | .calcWrap e => "calc(" ++ CssNode.css e ++ ")"
  | .calcSum l r op => CssNode.css l ++ " " ++ op ++ " " ++ CssNode.css r
  | .calcProduct l r op => CssNode.css l ++ " " ++ op ++ " " ++ CssNode.css r

/-- The `array.map(node => node.css())` over a child list. -/
def CssNode.cssList : List CssNode → List String
  | [] => []
  | x :: xs => CssNode.css x :: CssNode.cssList xs
end

mutual
/-- Whether a tree contains a `CssCalcNode` (`calc(...)` wrapper) anywhere. -/
def CssNode.hasCalcNode : CssNode → Bool
  | .passthrough _ => false
  | .concat arr => CssNode.listHasCalcNode arr
  | .url _ => false
  | .numeric _ => false
  | .func _ args _ => CssNode.listHasCalcNode args
  | .varRef _ d =>
    match d with
    | some dn => CssNode.hasCalcNode dn
    | none => false
  | .calcWrap _ => true
  | .calcSum l r _ => CssNode.hasCalcNode l || CssNode.hasCalcNode r
  | .calcProduct l r _ => CssNode.hasCalcNode l || CssNode.hasCalcNode r

/-- Whether any node of a list contains a `CssCalcNode`. -/
def CssNode.listHasCalcNode : List CssNode → Bool
  | [] => false
  | x :: xs => CssNode.hasCalcNode x || CssNode.listHasCalcNode xs
end

/-- Outcome of evaluating one node: a node value, JS `null` ("no value"), a
thrown `Error` with its message, or exhaustion of the recursion fuel (an
artifact of the embedding; the source does not bound `var()` recursion). -/
inductive EvalResult where
  | val (node : CssNode)
  | nul
  | err (msg : String)
  | timeout
deriving Repr

/-- Whether an evaluation completed normally, either with a value or with
`null` (no thrown error, no fuel exhaustion). -/
def EvalResult.completed : EvalResult → Bool
  | .val _ => true
  | .nul => true
  | .err _ => false
  | .timeout => false

/-- Outcome of resolving a list of child nodes: the list of resolved children,
or the propagated `null` / thrown error / fuel exhaustion. -/
inductive ArgsResult where
  | ok (args : List CssNode)
  | nul
  | err (msg : String)
  | timeout
deriving Repr

/-- Whether a child-list resolution completed normally. -/
def ArgsResult.completed : ArgsResult → Bool
  | .ok _ => true
  | .nul => true
  | .err _ => false
  | .timeout => false

/-- The type of the `resolve(context)` entry point a node's `calc(context)`
re-invokes on its children. -/
abbrev Resolver := CssNode → CssContext → EvalResult × CssContext

/-- Loop body of `CssConcatNode.calc`: resolve each element in order, pushing
results onto `resolvedArray`; one `null` element makes the result `null`. -/
def CssConcatNode.calcElements (r : Resolver) :
    List CssNode → CssContext → ArgsResult × CssContext
  | [], ctx => (.ok [], ctx)
  | node :: rest, ctx =>
    let res := r node ctx
    match res.1 with
    | .val v =>
      match CssConcatNode.calcElements r rest res.2 with
      | (.ok xs, cf) => (.ok (v :: xs), cf)
      | other => other
    | .nul => (.nul, res.2)
    | .err m => (.err m, res.2)
    | .timeout => (.timeout, res.2)

/-- Method `CssConcatNode.calc(context)`: resolve every element; rebuild a
`CssConcatNode` of the resolved elements, or propagate `null`/errors. -/
def CssConcatNode.calc (r : Resolver) (array : List CssNode)
    (ctx : CssContext) : EvalResult × CssContext :=
  match CssConcatNode.calcElements r array ctx with
  | (.ok xs, ctxf) => (.val (.concat xs), ctxf)
  | (.nul, ctxf) => (.nul, ctxf)
  | (.err m, ctxf) => (.err m, ctxf)
  | (.timeout, ctxf) => (.timeout, ctxf)

/-- Method `CssUrlNode.calc(context)`: ask the context to resolve the raw url
and wrap the result as a passthrough `url("<resolved>")` to avoid recursive
`url()` evaluation.  The ghost counter `urlCalls` records the `resolveUrl`
invocation. -/
def CssUrlNode.calc (url : String) (ctx : CssContext) :
    EvalResult × CssContext :=
  let resolved := ctx.resolveUrl url
  (.val (.passthrough ("url(\"" ++ resolved ++ "\")")),
   { ctx with urlCalls := ctx.urlCalls + 1 })

/-- Loop body of `CssFuncNode.calc`: resolve each argument in order; when the
argument position `i` has a dimension tag (`dimensions_ && i <
dimensions_.length`), bracket its resolution with `pushDimension`/
`popDimension`.  A thrown error propagates before the pop (the source has no
`finally`); a `null` argument makes the whole result `null` after the pop. -/
def CssFuncNode.calcArgs (r : Resolver) (dimensions : Option (List String)) :
    Nat → List CssNode → CssContext → ArgsResult × CssContext
  | _, [], ctx => (.ok [], ctx)
  | i, node :: rest, ctx =>
    let step :=
      match dimensions.bind (fun ds => ds.get? i) with
      | some d =>
        let res := r node (ctx.pushDimension d)
        match res.1 with
        | .err m => (EvalResult.err m, res.2)
        | .timeout => (EvalResult.timeout, res.2)
        | other => (other, res.2.popDimension)
      | none => r node ctx
    match step.1 with
    | .val v =>
      match CssFuncNode.calcArgs r dimensions (i + 1) rest step.2 with
      | (.ok xs, cf) => (.ok (v :: xs), cf)
      | other => other
    | .nul => (.nul, step.2)
    | .err m => (.err m, step.2)
    | .timeout => (.timeout, step.2)

/-- Method `CssFuncNode.calc(context)`: resolve the arguments under their
dimension tags; rebuild `new CssFuncNode(name_, resolvedArgs)` (note: without
dimensions) or propagate `null`/errors. -/
def CssFuncNode.calc (r : Resolver) (name : String) (args : List CssNode)
    (dimensions : Option (List String)) (ctx : CssContext) :
    EvalResult × CssContext :=
  match CssFuncNode.calcArgs r dimensions 0 args ctx with
  | (.ok resolvedArgs, ctxf) => (.val (CssFuncNode name resolvedArgs none), ctxf)
  | (.nul, ctxf) => (.nul, ctxf)
  | (.err m, ctxf) => (.err m, ctxf)
  | (.timeout, ctxf) => (.timeout, ctxf)

/-- Method `CssVarNode.calc(context)`: look the variable up in the context;
resolve the found node, else resolve the default if present, else `null`. -/
def CssVarNode.calc (r : Resolver) (varName : String) (def_ : Option CssNode)
    (ctx : CssContext) : EvalResult × CssContext :=
  match ctx.getVar varName with
  | some varNode => r varNode ctx
  | none =>
    match def_ with
    | some d => r d ctx
    | none => (.nul, ctx)

/-- Method `CssCalcNode.calc(context)`: resolve the wrapped expression; the
`calc()` wrapper itself disappears. -/
def CssCalcNode.calc (r : Resolver) (expr : CssNode) (ctx : CssContext) :
    EvalResult × CssContext :=
  r expr ctx

/-- The percent-substitution step of `CssCalcSumNode.calc`: when the
categories differ, the percent side (left checked first) is substituted by
the other side's `calcPercent`; when the categories differ and neither side
is a percent, an `Error` is thrown. -/
def CssCalcSumNode.substitutePercent (ln rn : CssNumeric)
    (ctx : CssContext) : Except String (CssNumeric × CssNumeric) :=
  if ln.type_ != rn.type_ then
    if ln.isPercent then (rn.calcPercent ln.num_ ctx).map (fun l => (l, rn))
    else if rn.isPercent then
      (ln.calcPercent rn.num_ ctx).map (fun r => (ln, r))
    else .error "left and right must be the same type"
  else .ok (ln, rn)

/-- The unit-normalization step of `CssCalcSumNode.calc`: when the units
differ after percent substitution, both sides are normalized, left first (as
in the source, so the left side's `unknownUnits` throw wins). -/
def CssCalcSumNode.normalizeUnits (l0 r0 : CssNumeric) (ctx : CssContext) :
    Except String (CssNumeric × CssNumeric) :=
  if l0.units_ != r0.units_ then do
    let l1 ← l0.norm ctx
    let r1 ← r0.norm ctx
    return (l1, r1)
  else .ok (l0, r0)

/-- The summation step of `CssCalcSumNode.calc`: percent substitution, unit
normalization, then the magnitudes summed with the sign of the operator and
the result rebuilt in the left side's units. -/
def CssCalcSumNode.combine (ln rn : CssNumeric) (op : String)
    (ctx : CssContext) : EvalResult :=
  match CssCalcSumNode.substitutePercent ln rn ctx with
  | .error m => .err m
  | .ok (l0, r0) =>
    match CssCalcSumNode.normalizeUnits l0 r0 ctx with
    | .error m => .err m
    | .ok (l, r) =>
      let sign : ℚ := if op == "+" then 1 else -1
      .val (.numeric (l.createSameUnits (l.num_ + sign * r.num_)))

/-- The `left == null || right == null` check and the
`instanceof CssNumericNode` checks of `CssCalcSumNode.calc`, feeding
`CssCalcSumNode.combine` once both resolved sides are numeric. -/
def CssCalcSumNode.finish : EvalResult → EvalResult → String → CssContext →
    EvalResult
  | .nul, _, _, _ => .nul
  | _, .nul, _, _ => .nul
  | .val (.numeric ln), .val (.numeric rn), op, ctx =>
    CssCalcSumNode.combine ln rn op ctx
  | _, _, _, _ => .err "left and right must be both numerical"

/-- Method `CssCalcSumNode.calc(context)`: resolve both sides (a thrown error
on the left propagates before the right side runs); then
`CssCalcSumNode.finish`. -/
def CssCalcSumNode.calc (r : Resolver) (left right : CssNode) (op : String)
    (ctx : CssContext) : EvalResult × CssContext :=
  let lres := r left ctx
  match lres.1 with
  | .err m => (.err m, lres.2)
  | .timeout => (.timeout, lres.2)
  | lval =>
    let rres := r right lres.2
    match rres.1 with
    | .err m => (.err m, rres.2)
    | .timeout => (.timeout, rres.2)
    | rval => (CssCalcSumNode.finish lval rval op ctx, rres.2)

/-- The typed part of `CssCalcProductNode.calc` once both sides have resolved
to numeric nodes.  For `*` the side that is a plain number supplies the
multiplier (left checked first) and the other side the base; for `/` the
right side must be a plain number and the base is the left side.  The source
then computes `num = base.num_ * multi` and returns `null` when `num` is not
finite; over exact rationals the only non-finite case is the infinite
`multi = 1 / 0` of a division by zero, modelled by the explicit zero test. -/
def CssCalcProductNode.combine (ln rn : CssNumeric) (op : String) :
    EvalResult :=
  if op == "*" then
    match ln with
    | .num m => .val (.numeric (rn.createSameUnits (rn.num_ * m)))
    | _ =>
      match rn with
      | .num m => .val (.numeric (ln.createSameUnits (ln.num_ * m)))
      | _ => .err "one of sides in multiplication must be a number"
  else
    match rn with
    | .num m =>
      if m == 0 then .nul
      else .val (.numeric (ln.createSameUnits (ln.num_ * (1 / m))))
    | _ => .err "denominator must be a number"

/-- The `left == null || right == null` check and the
`instanceof CssNumericNode` checks of `CssCalcProductNode.calc`, feeding
`CssCalcProductNode.combine` once both resolved sides are numeric. -/
def CssCalcProductNode.finish : EvalResult → EvalResult → String → EvalResult
  | .nul, _, _ => .nul
  | _, .nul, _ => .nul
  | .val (.numeric ln), .val (.numeric rn), op =>
    CssCalcProductNode.combine ln rn op
  | _, _, _ => .err "left and right must be both numerical"

/-- Method `CssCalcProductNode.calc(context)`: resolve both sides (a thrown
error on the left propagates before the right side runs); then
`CssCalcProductNode.finish`. -/
def CssCalcProductNode.calc (r : Resolver) (left right : CssNode)
    (op : String) (ctx : CssContext) : EvalResult × CssContext :=
  let lres := r left ctx
  match lres.1 with
  | .err m => (.err m, lres.2)
  | .timeout => (.timeout, lres.2)
  | lval =>
    let rres := r right lres.2
    match rres.1 with
    | .err m => (.err m, rres.2)
    | .timeout => (.timeout, rres.2)
    | rval => (CssCalcProductNode.finish lval rval op, rres.2)

/-- The virtual dispatch of `calc(context)` over the node classes.  The
variants that do not override the base `CssNode.calc` (passthrough and
numeric leaves) return `this`. -/
def CssNode.calcDispatch (r : Resolver) : CssNode → CssContext →
    EvalResult × CssContext
  | n@(.passthrough _), ctx => (.val n, ctx)
  | .concat arr, ctx => CssConcatNode.calc r arr ctx
  | .url u, ctx => CssUrlNode.calc u ctx
  | n@(.numeric _), ctx => (.val n, ctx)
  | .func name args dims, ctx => CssFuncNode.calc r name args dims ctx
  | .varRef name d, ctx => CssVarNode.calc r name d ctx
  | .calcWrap e, ctx => CssCalcNode.calc r e ctx
  | .calcSum l rt op, ctx => CssCalcSumNode.calc r l rt op ctx
  | .calcProduct l rt op, ctx => CssCalcProductNode.calc r l rt op ctx

/-- Method `CssNode.resolve(context)` (final, shared by all variants): return
`this` when `isConst()`, else dispatch to the variant's `calc(context)`.  The
fuel bounds the recursion through `var()` indirection, which the source
leaves unbounded; any terminating source evaluation is reproduced exactly by
every sufficiently large fuel. -/
def CssNode.resolve : Nat → CssNode → CssContext → EvalResult × CssContext
  | 0, _, ctx => (.timeout, ctx)
  | fuel + 1, node, ctx =>
    if node.isConst then (.val node, ctx)
    else CssNode.calcDispatch (CssNode.resolve fuel) node ctx

/-- The length units `CssLengthNode.norm` can convert to `px`. -/
def lengthUnits : List String := ["px", "em", "rem", "vw", "vh", "vmin", "vmax"]

/-- The angle units `CssAngleNode.norm` can convert to `rad`. -/
def angleUnits : List String := ["rad", "deg", "grad"]

/-- The time units `CssTimeNode.norm` can convert to `ms`. -/
def timeUnits : List String := ["ms", "s"]

/-- A concrete evaluation context used to instantiate the theorems below:
identity URL resolution, no variables bound, 16px fonts, a 400x300 viewport,
a 200x100 element, and dimension `w` on the stack. -/
def ctx0 : CssContext :=
  { resolveUrl := fun u => u
    getVar := fun _ => none
    getCurrentFontSize := 16
    getRootFontSize := 16
    getViewportSize := (400, 300)
    getCurrentElementSize := (200, 100)
    dimStack := ["w"]
    pushes := 0
    pops := 0
    urlCalls := 0 }

/-- C1: in any context whose current element size is width 200, height 100
and whose dimension stack top is `w`, evaluating
`CalcSum(Length(50,'px'), Percent(50), '+')` yields `Length(150,'px')`: the
percent side is replaced by the length side's `calcPercent` result
(50/100 * 200 = 100 px) and added to the left operand, the result carrying
the left side's unit. -/
theorem C1_calcSum_percent_resolution (fuel : Nat) (ctx : CssContext)
    (hsize : ctx.getCurrentElementSize = (200, 100))
    (hdim : ctx.getDimension = some "w") :
    CssNode.resolve (fuel + 2)
      (CssCalcSumNode (CssLengthNode 50 "px") (CssPercentNode 50) "+") ctx =
    (.val (CssLengthNode 150 "px"), ctx) := by
  simp [CssNode.resolve, CssNode.isConst, CssCalcSumNode, CssLengthNode,
    CssPercentNode, CssNode.calcDispatch, CssCalcSumNode.calc,
    CssCalcSumNode.finish, CssCalcSumNode.combine,
    CssCalcSumNode.substitutePercent, CssCalcSumNode.normalizeUnits,
    CssNumeric.type_,
    CssNumeric.isPercent, CssNumeric.calcPercent, hsize, hdim, CssNumeric.num_,
    CssNumeric.units_, CssNumeric.createSameUnits, jsToLowerCase, Except.map]
  norm_num

/-- Witness for C1 at the concrete context `ctx0` and fuel 2. -/
theorem C1_witness :
    CssNode.resolve 2
      (CssCalcSumNode (CssLengthNode 50 "px") (CssPercentNode 50) "+") ctx0 =
    (.val (CssLengthNode 150 "px"), ctx0) :=
  C1_calcSum_percent_resolution 0 ctx0 rfl rfl

/-- C2: for every node whose `isConst()` is true and every context,
`resolve(context)` returns the node itself (in the embedding's value
semantics, the function returns its argument unchanged, modelling the
source's `return this`); and for every non-constant node `resolve` equals
the variant's `calc(context)` dispatch, for every node variant. -/
theorem C2_resolve_const_identity (fuel : Nat) (node : CssNode)
    (ctx : CssContext) :
    (node.isConst = true →
      CssNode.resolve (fuel + 1) node ctx = (.val node, ctx)) ∧
    (node.isConst = false →
      CssNode.resolve (fuel + 1) node ctx =
        CssNode.calcDispatch (CssNode.resolve fuel) node ctx) := by
  constructor <;> intro h <;> simp [CssNode.resolve, h]

/-- Witness for C2: a constant numeric leaf resolves to itself, and a
non-constant `var()` node dispatches to `calc`. -/
theorem C2_witness :
    CssNode.resolve 1 (CssNumberNode 5) ctx0 =
      (.val (CssNumberNode 5), ctx0) ∧
    CssNode.resolve 1 (CssVarNode "--x" none) ctx0 =
      CssNode.calcDispatch (CssNode.resolve 0) (CssVarNode "--x" none) ctx0 :=
  ⟨(C2_resolve_const_identity 0 (CssNumberNode 5) ctx0).1
     (by simp [CssNumberNode, CssNode.isConst]),
   (C2_resolve_const_identity 0 (CssVarNode "--x" none) ctx0).2
     (by simp [CssVarNode, CssNode.isConst])⟩

/-- C3 counterexample: `CalcProduct(Count(2), Count(3), '*')` has both sides
in the unitless Count category — not exactly one — yet evaluation returns
`Count(6)` rather than raising a fatal error. -/
theorem C3_counterexample_count_times_count :
    CssNode.resolve 2
      (CssCalcProductNode (CssNumberNode 2) (CssNumberNode 3) "*") ctx0 =
    (.val (CssNumberNode 6), ctx0) := by
  simp [CssNode.resolve, CssNode.isConst, CssCalcProductNode, CssNumberNode,
    CssNode.calcDispatch, CssCalcProductNode.calc, CssCalcProductNode.finish,
    CssCalcProductNode.combine, CssNumeric.createSameUnits, CssNumeric.num_]
  norm_num

/-- C3 amended: for every `CalcProduct` with op `*` whose two sides resolve
to non-null numeric nodes, a fatal error is raised exactly when neither side
is of the unitless Count (number) category; when the left side is a Count its
magnitude multiplies the right side (which supplies the result's category and
unit), otherwise when the right side is a Count it multiplies the left side.
(When both sides are Counts the left one is taken as the multiplier and the
result is a Count.) -/
theorem C3_product_mul_amended (fuel : Nat) (L R : CssNode)
    (ctx ctx1 ctx2 : CssContext) (ln rn : CssNumeric)
    (hL : CssNode.resolve fuel L ctx = (.val (.numeric ln), ctx1))
    (hR : CssNode.resolve fuel R ctx1 = (.val (.numeric rn), ctx2)) :
    CssNode.resolve (fuel + 1) (CssCalcProductNode L R "*") ctx =
      (if ln.isNumber then
        (.val (.numeric (rn.createSameUnits (rn.num_ * ln.num_))), ctx2)
      else if rn.isNumber then
        (.val (.numeric (ln.createSameUnits (ln.num_ * rn.num_))), ctx2)
      else (.err "one of sides in multiplication must be a number", ctx2)) := by
  cases ln <;> cases rn <;>
    simp [CssNode.resolve, CssNode.isConst, CssCalcProductNode,
      CssNode.calcDispatch, CssCalcProductNode.calc, hL, hR,
      CssCalcProductNode.finish, CssCalcProductNode.combine,
      CssNumeric.isNumber, CssNumeric.createSameUnits, CssNumeric.num_]

/-- Witness for C3's amended theorem: `Count(2) * Length(3,'px')` resolves to
`Length(6,'px')`. -/
theorem C3_amended_witness :
    CssNode.resolve 2
      (CssCalcProductNode (CssNumberNode 2) (CssLengthNode 3 "px") "*") ctx0 =
    (.val (CssLengthNode 6 "px"), ctx0) := by
  have h := C3_product_mul_amended 1 (CssNumberNode 2) (CssLengthNode 3 "px")
    ctx0 ctx0 ctx0 (.num 2) (.length 3 "px")
    (by simp [CssNode.resolve, CssNode.isConst, CssNumberNode])
    (by simp [CssNode.resolve, CssNode.isConst, CssLengthNode, jsToLowerCase])
  norm_num [CssNumeric.isNumber, CssNumeric.createSameUnits, CssNumeric.num_,
    CssLengthNode, jsToLowerCase] at h
  exact h

/-- C4: for every `CalcProduct` with op `/` whose sides resolve to a numeric
base and a Count (number) divisor `m`, the result is `null` when the computed
magnitude is not finite — over exact rationals, exactly when `m = 0`, where
the source's `multi = 1 / 0` is infinite and the `isFinite` guard fires —
and otherwise the base scaled by `1 / m` in the base's unit.  In particular
`CalcProduct(Length(10,'px'), Count(0), '/')` returns `null` rather than
throwing (see the witness). -/
theorem C4_division_guard (fuel : Nat) (L R : CssNode)
    (ctx ctx1 ctx2 : CssContext) (ln : CssNumeric) (m : ℚ)
    (hL : CssNode.resolve fuel L ctx = (.val (.numeric ln), ctx1))
    (hR : CssNode.resolve fuel R ctx1 = (.val (CssNumberNode m), ctx2)) :
    CssNode.resolve (fuel + 1) (CssCalcProductNode L R "/") ctx =
      (if m = 0 then (.nul, ctx2)
       else (.val (.numeric (ln.createSameUnits (ln.num_ * (1 / m)))), ctx2)) := by
  by_cases hm : m = 0 <;>
    simp [CssNode.resolve, CssNode.isConst, CssCalcProductNode, CssNumberNode,
      CssNode.calcDispatch, CssCalcProductNode.calc, hL, hR,
      CssCalcProductNode.finish, CssCalcProductNode.combine, hm]

/-- Witness for C4 at the claim's own input: dividing `Length(10,'px')` by
`Count(0)` evaluates to `null`, not an exception. -/
theorem C4_witness :
    CssNode.resolve 2
      (CssCalcProductNode (CssLengthNode 10 "px") (CssNumberNode 0) "/") ctx0 =
    (.nul, ctx0) := by
  have h := C4_division_guard 1 (CssLengthNode 10 "px") (CssNumberNode 0)
    ctx0 ctx0 ctx0 (.length 10 "px") 0
    (by simp [CssNode.resolve, CssNode.isConst, CssLengthNode, jsToLowerCase])
    (by simp [CssNode.resolve, CssNode.isConst, CssNumberNode])
  simpa using h

/-- C5: for every length, angle or time node whose unit the category
supports, `norm(context)` returns a node in the category's canonical unit
(`px`, `rad`, `ms` respectively), and when the unit is already canonical the
result is the same node, with an equal magnitude. -/
theorem C5_norm_canonical (ctx : CssContext) (n : ℚ) (u : String) :
    (u ∈ lengthUnits → ∃ m, (CssNumeric.length n u).norm ctx =
      .ok (.length m "px") ∧ (u = "px" → m = n)) ∧
    (u ∈ angleUnits → ∃ m, (CssNumeric.angle n u).norm ctx =
      .ok (.angle m "rad") ∧ (u = "rad" → m = n)) ∧
    (u ∈ timeUnits → ∃ m, (CssNumeric.time n u).norm ctx =
      .ok (.time m "ms") ∧ (u = "ms" → m = n)) := by
  refine ⟨fun hu => ?_, fun hu => ?_, fun hu => ?_⟩ <;>
    simp only [lengthUnits, angleUnits, timeUnits, List.mem_cons,
      List.mem_singleton, List.not_mem_nil, or_false] at hu
  · rcases hu with rfl | rfl | rfl | rfl | rfl | rfl | rfl
    · exact ⟨n, by simp [CssNumeric.norm], fun _ => rfl⟩
    · exact ⟨n * ctx.getCurrentFontSize, by simp [CssNumeric.norm],
        by intro h; simp at h⟩
    · exact ⟨n * ctx.getRootFontSize, by simp [CssNumeric.norm],
        by intro h; simp at h⟩
    · exact ⟨ctx.getViewportSize.1 * n / 100, by simp [CssNumeric.norm],
        by intro h; simp at h⟩
    · exact ⟨ctx.getViewportSize.2 * n / 100, by simp [CssNumeric.norm],
        by intro h; simp at h⟩
    · exact ⟨min (ctx.getViewportSize.1 * n / 100)
        (ctx.getViewportSize.2 * n / 100), by simp [CssNumeric.norm],
        by intro h; simp at h⟩
    · exact ⟨max (ctx.getViewportSize.1 * n / 100)
        (ctx.getViewportSize.2 * n / 100), by simp [CssNumeric.norm],
        by intro h; simp at h⟩
  · rcases hu with rfl | rfl | rfl
    · exact ⟨n, by simp [CssNumeric.norm], fun _ => rfl⟩
    · exact ⟨n * DEG_TO_RAD, by simp [CssNumeric.norm], by intro h; simp at h⟩
    · exact ⟨n * GRAD_TO_RAD, by simp [CssNumeric.norm], by intro h; simp at h⟩
  · rcases hu with rfl | rfl
    · exact ⟨n, by simp [CssNumeric.norm], fun _ => rfl⟩
    · exact ⟨n * 1000, by simp [CssNumeric.norm], by intro h; simp at h⟩

/-- Witness for C5: normalizing `2em` under `ctx0` (font size 16) gives a
`px` length, and normalizing an already-canonical `2px` is a no-op. -/
theorem C5_witness :
    (∃ m, (CssNumeric.length 2 "em").norm ctx0 =
      .ok (.length m "px") ∧ ("em" = "px" → m = 2)) ∧
    (∃ m, (CssNumeric.length 2 "px").norm ctx0 =
      .ok (.length m "px") ∧ ("px" = "px" → m = 2)) :=
  ⟨(C5_norm_canonical ctx0 2 "em").1 (by decide),
   (C5_norm_canonical ctx0 2 "px").1 (by decide)⟩

/-- C6: resolving `Concat([A, VarRef('--missing')])`, where the var has no
default and the context binds no value for `--missing`, yields `null` for
every constant node `A`: a `null` child poisons the whole `Concat`. -/
theorem C6_concat_null_propagation (fuel : Nat) (A : CssNode)
    (ctx : CssContext) (hA : A.isConst = true)
    (hvar : ctx.getVar "--missing" = none) :
    CssNode.resolve (fuel + 2)
      (CssConcatNode [A, CssVarNode "--missing" none]) ctx = (.nul, ctx) := by
  simp [CssNode.resolve, CssNode.isConst, CssNode.allConst, CssConcatNode,
    CssVarNode, CssNode.calcDispatch, CssConcatNode.calc,
    CssConcatNode.calcElements, hA, CssVarNode.calc, hvar]

/-- Witness for C6 with `A = Length(1,'px')` under `ctx0` (which binds no
variables). -/
theorem C6_witness :
    CssNode.resolve 2
      (CssConcatNode [CssLengthNode 1 "px", CssVarNode "--missing" none])
      ctx0 = (.nul, ctx0) :=
  C6_concat_null_propagation 0 (CssLengthNode 1 "px") ctx0
    (by simp [CssLengthNode, CssNode.isConst]) rfl

/-- C8: every non-constant url node evaluates to a passthrough node carrying
`url("<resolved>")`, with the context's `resolveUrl` invoked exactly once
(the ghost counter `urlCalls` increments by one); and a passthrough node is
always constant, so resolving that output again under any context returns it
unchanged — the context, including its `urlCalls` counter, is untouched, so
`resolveUrl` is never invoked again. -/
theorem C8_url_resolution_idempotent (fuel : Nat) (u s : String)
    (ctx ctxB : CssContext) :
    ((CssUrlNode u).isConst = false →
      CssNode.resolve (fuel + 1) (CssUrlNode u) ctx =
        (.val (CssPassthroughNode ("url(\"" ++ ctx.resolveUrl u ++ "\")")),
         { ctx with urlCalls := ctx.urlCalls + 1 })) ∧
    ((CssPassthroughNode s).isConst = true ∧
      CssNode.resolve (fuel + 1) (CssPassthroughNode s) ctxB =
        (.val (CssPassthroughNode s), ctxB)) := by
  refine ⟨fun h => ?_, ?_, ?_⟩
  · simp only [CssUrlNode] at h
    simp [CssNode.resolve, h, CssNode.calcDispatch, CssUrlNode,
      CssUrlNode.calc, CssPassthroughNode]
  · simp [CssPassthroughNode, CssNode.isConst]
  · simp [CssNode.resolve, CssPassthroughNode, CssNode.isConst]

/-- Witness for C8 at the relative url `foo.png` (non-constant) under
`ctx0`, whose `resolveUrl` is the identity. -/
theorem C8_witness :
    CssNode.resolve 1 (CssUrlNode "foo.png") ctx0 =
      (.val (CssPassthroughNode ("url(\"" ++ ctx0.resolveUrl "foo.png" ++ "\")")),
       { ctx0 with urlCalls := ctx0.urlCalls + 1 }) ∧
    CssNode.resolve 1 (CssPassthroughNode "url(\"foo.png\")") ctx0 =
      (.val (CssPassthroughNode "url(\"foo.png\")"), ctx0) :=
  ⟨(C8_url_resolution_idempotent 0 "foo.png" "url(\"foo.png\")" ctx0 ctx0).1
     (by simp [CssUrlNode, CssNode.isConst]; decide),
   (C8_url_resolution_idempotent 0 "foo.png" "url(\"foo.png\")" ctx0 ctx0).2.2⟩

/-- C9 counterexample: the constant url node for the legitimate HTTPS URL
`https://a/calc(1` resolves to itself, and the serialization of that
resolved output contains the substring `calc(` — refuting the claim that a
resolved tree's serialization never contains `calc(`. -/
theorem C9_counterexample_url_css :
    CssNode.resolve 1 (CssUrlNode "https://a/calc(1") ctx0 =
      (.val (CssUrlNode "https://a/calc(1"), ctx0) ∧
    CssNode.css (CssUrlNode "https://a/calc(1") =
      "url(\"https://a/" ++ "calc(" ++ "1\")" := by
  constructor
  · have hc : (CssUrlNode "https://a/calc(1").isConst = true := by
      simp [CssUrlNode, CssNode.isConst]; decide
    simp [CssNode.resolve, hc]
  · simp [CssUrlNode, CssNode.css]

/-- Helper: the element loop of `CssConcatNode.calc` leaves the push/pop
deltas of any resolver that balances them balanced, whenever it completes
without a thrown error. -/
theorem calcElements_balanced (r : Resolver)
    (hr : ∀ node ctx res ctx2, r node ctx = (res, ctx2) →
      res.completed = true → ctx2.pushes + ctx.pops = ctx.pushes + ctx2.pops) :
    ∀ (arr : List CssNode) (ctx : CssContext) (res : ArgsResult)
      (ctx2 : CssContext),
      CssConcatNode.calcElements r arr ctx = (res, ctx2) →
      res.completed = true →
      ctx2.pushes + ctx.pops = ctx.pushes + ctx2.pops := by
  intro arr
  induction arr with
  | nil =>
    intro ctx res ctx2 h _
    simp [CssConcatNode.calcElements] at h
    rw [h.2]
  | cons node rest ih =>
    intro ctx res ctx2 h hok
    rcases hv : r node ctx with ⟨r1, cA⟩
    simp only [CssConcatNode.calcElements, hv] at h
    cases r1 with
    | val v =>
      simp only at h
      rcases hrec : CssConcatNode.calcElements r rest cA with ⟨res2, cB⟩
      have hA := hr node ctx (.val v) cA hv (by simp [EvalResult.completed])
      cases res2 with
      | ok xs =>
        simp [hrec] at h
        obtain ⟨h1, h2⟩ := h
        subst h2
        have hB := ih cA (.ok xs) cB hrec (by simp [ArgsResult.completed])
        omega
      | nul =>
        simp [hrec] at h
        obtain ⟨h1, h2⟩ := h
        subst h2
        have hB := ih cA .nul cB hrec (by simp [ArgsResult.completed])
        omega
      | err m =>
        simp [hrec] at h
        obtain ⟨h1, h2⟩ := h
        subst h1
        simp [ArgsResult.completed] at hok
      | timeout =>
        simp [hrec] at h
        obtain ⟨h1, h2⟩ := h
        subst h1
        simp [ArgsResult.completed] at hok
    | nul =>
      simp at h
      obtain ⟨h1, h2⟩ := h
      subst h2
      exact hr node ctx .nul cA hv (by simp [EvalResult.completed])
    | err m =>
      simp at h
      obtain ⟨h1, h2⟩ := h
      subst h1
      simp [ArgsResult.completed] at hok
    | timeout =>
      simp at h
      obtain ⟨h1, h2⟩ := h
      subst h1
      simp [ArgsResult.completed] at hok

/-- Helper: the argument loop of `CssFuncNode.calc` balances its own
`pushDimension`/`popDimension` pairs around any resolver that is itself
balanced, whenever it completes without a thrown error — including when an
argument resolves to `null`, since the pop precedes the null short-circuit. -/
theorem calcArgs_balanced (r : Resolver)
    (hr : ∀ node ctx res ctx2, r node ctx = (res, ctx2) →
      res.completed = true → ctx2.pushes + ctx.pops = ctx.pushes + ctx2.pops)
    (dims : Option (List String)) :
    ∀ (arr : List CssNode) (i : Nat) (ctx : CssContext) (res : ArgsResult)
      (ctx2 : CssContext),
      CssFuncNode.calcArgs r dims i arr ctx = (res, ctx2) →
      res.completed = true →
      ctx2.pushes + ctx.pops = ctx.pushes + ctx2.pops := by
  intro arr
  induction arr with
  | nil =>
    intro i ctx res ctx2 h _
    simp [CssFuncNode.calcArgs] at h
    rw [h.2]
  | cons node rest ih =>
    intro i ctx res ctx2 h hok
    rcases hd : dims.bind (fun ds => ds.get? i) with _ | d
    all_goals simp only [CssFuncNode.calcArgs, hd] at h
    -- no dimension tag for this argument: plain resolution
    · rcases hv : r node ctx with ⟨r1, cA⟩
      simp only [hv] at h
      cases r1 with
      | val v =>
        simp only at h
        rcases hrec : CssFuncNode.calcArgs r dims (i + 1) rest cA with ⟨res2, cB⟩
        have hA := hr node ctx (.val v) cA hv (by simp [EvalResult.completed])
        cases res2 with
        | ok xs =>
          simp [hrec] at h
          obtain ⟨h1, h2⟩ := h
          subst h2
          have hB := ih (i + 1) cA (.ok xs) cB hrec (by simp [ArgsResult.completed])
          omega
        | nul =>
          simp [hrec] at h
          obtain ⟨h1, h2⟩ := h
          subst h2
          have hB := ih (i + 1) cA .nul cB hrec (by simp [ArgsResult.completed])
          omega
        | err m =>
          simp [hrec] at h
          obtain ⟨h1, h2⟩ := h
          subst h1
          simp [ArgsResult.completed] at hok
        | timeout =>
          simp [hrec] at h
          obtain ⟨h1, h2⟩ := h
          subst h1
          simp [ArgsResult.completed] at hok
      | nul =>
        simp at h
        obtain ⟨h1, h2⟩ := h
        subst h2
        exact hr node ctx .nul cA hv (by simp [EvalResult.completed])
      | err m =>
        simp at h
        obtain ⟨h1, h2⟩ := h
        subst h1
        simp [ArgsResult.completed] at hok
      | timeout =>
        simp at h
        obtain ⟨h1, h2⟩ := h
        subst h1
        simp [ArgsResult.completed] at hok
    -- dimension tag `d`: push, resolve, pop
    · rcases hv : r node (ctx.pushDimension d) with ⟨r1, cA⟩
      simp only [hv] at h
      cases r1 with
      | val v =>
        simp only at h
        rcases hrec : CssFuncNode.calcArgs r dims (i + 1) rest cA.popDimension
          with ⟨res2, cB⟩
        have hA := hr node (ctx.pushDimension d) (.val v) cA hv
          (by simp [EvalResult.completed])
        simp [CssContext.pushDimension] at hA
        cases res2 with
        | ok xs =>
          simp [hrec] at h
          obtain ⟨h1, h2⟩ := h
          subst h2
          have hB := ih (i + 1) cA.popDimension (.ok xs) cB hrec
            (by simp [ArgsResult.completed])
          simp [CssContext.popDimension] at hB
          omega
        | nul =>
          simp [hrec] at h
          obtain ⟨h1, h2⟩ := h
          subst h2
          have hB := ih (i + 1) cA.popDimension .nul cB hrec
            (by simp [ArgsResult.completed])
          simp [CssContext.popDimension] at hB
          omega
        | err m =>
          simp [hrec] at h
          obtain ⟨h1, h2⟩ := h
          subst h1
          simp [ArgsResult.completed] at hok
        | timeout =>
          simp [hrec] at h
          obtain ⟨h1, h2⟩ := h
          subst h1
          simp [ArgsResult.completed] at hok
      | nul =>
        simp at h
        obtain ⟨h1, h2⟩ := h
        subst h2
        have hA := hr node (ctx.pushDimension d) .nul cA hv
          (by simp [EvalResult.completed])
        simp [CssContext.pushDimension] at hA
        simp [CssContext.popDimension]
        omega
      | err m =>
        simp at h
        obtain ⟨h1, h2⟩ := h
        subst h1
        simp [ArgsResult.completed] at hok
      | timeout =>
        simp at h
        obtain ⟨h1, h2⟩ := h
        subst h1
        simp [ArgsResult.completed] at hok

/-- Helper: `CssCalcSumNode.calc` is balanced for any balanced resolver,
whenever it completes without a thrown error. -/
theorem calcSum_balanced (r : Resolver)
    (hr : ∀ node ctx res ctx2, r node ctx = (res, ctx2) →
      res.completed = true → ctx2.pushes + ctx.pops = ctx.pushes + ctx2.pops) :
    ∀ (left right : CssNode) (op : String) (ctx : CssContext)
      (res : EvalResult) (ctx2 : CssContext),
      CssCalcSumNode.calc r left right op ctx = (res, ctx2) →
      res.completed = true →
      ctx2.pushes + ctx.pops = ctx.pushes + ctx2.pops := by
  intro left right op ctx res ctx2 h hok
  rcases hl : r left ctx with ⟨l1, cA⟩
  simp only [CssCalcSumNode.calc, hl] at h
  cases l1 with
  | err m =>
    simp at h
    obtain ⟨h1, _⟩ := h
    subst h1
    simp [EvalResult.completed] at hok
  | timeout =>
    simp at h
    obtain ⟨h1, _⟩ := h
    subst h1
    simp [EvalResult.completed] at hok
  | val v =>
    have hA := hr left ctx (.val v) cA hl (by simp [EvalResult.completed])
    simp only at h
    rcases h2 : r right cA with ⟨r1, cB⟩
    simp only [h2] at h
    cases r1 with
    | err m =>
      simp at h
      obtain ⟨h1, _⟩ := h
      subst h1
      simp [EvalResult.completed] at hok
    | timeout =>
      simp at h
      obtain ⟨h1, _⟩ := h
      subst h1
      simp [EvalResult.completed] at hok
    | val w =>
      have hB := hr right cA (.val w) cB h2 (by simp [EvalResult.completed])
      simp at h
      obtain ⟨_, hc⟩ := h
      subst hc
      omega
    | nul =>
      have hB := hr right cA .nul cB h2 (by simp [EvalResult.completed])
      simp at h
      obtain ⟨_, hc⟩ := h
      subst hc
      omega
  | nul =>
    have hA := hr left ctx .nul cA hl (by simp [EvalResult.completed])
    simp only at h
    rcases h2 : r right cA with ⟨r1, cB⟩
    simp only [h2] at h
    cases r1 with
    | err m =>
      simp at h
      obtain ⟨h1, _⟩ := h
      subst h1
      simp [EvalResult.completed] at hok
    | timeout =>
      simp at h
      obtain ⟨h1, _⟩ := h
      subst h1
      simp [EvalResult.completed] at hok
    | val w =>
      have hB := hr right cA (.val w) cB h2 (by simp [EvalResult.completed])
      simp at h
      obtain ⟨_, hc⟩ := h
      subst hc
      omega
    | nul =>
      have hB := hr right cA .nul cB h2 (by simp [EvalResult.completed])
      simp at h
      obtain ⟨_, hc⟩ := h
      subst hc
      omega

/-- Helper: `CssCalcProductNode.calc` is balanced for any balanced resolver,
whenever it completes without a thrown error. -/
theorem calcProduct_balanced (r : Resolver)
    (hr : ∀ node ctx res ctx2, r node ctx = (res, ctx2) →
      res.completed = true → ctx2.pushes + ctx.pops = ctx.pushes + ctx2.pops) :
    ∀ (left right : CssNode) (op : String) (ctx : CssContext)
      (res : EvalResult) (ctx2 : CssContext),
      CssCalcProductNode.calc r left right op ctx = (res, ctx2) →
      res.completed = true →
      ctx2.pushes + ctx.pops = ctx.pushes + ctx2.pops := by
  intro left right op ctx res ctx2 h hok
  rcases hl : r left ctx with ⟨l1, cA⟩
  simp only [CssCalcProductNode.calc, hl] at h
  cases l1 with
  | err m =>
    simp at h
    obtain ⟨h1, _⟩ := h
    subst h1
    simp [EvalResult.completed] at hok
  | timeout =>
    simp at h
    obtain ⟨h1, _⟩ := h
    subst h1
    simp [EvalResult.completed] at hok
  | val v =>
    have hA := hr left ctx (.val v) cA hl (by simp [EvalResult.completed])
    simp only at h
    rcases h2 : r right cA with ⟨r1, cB⟩
    simp only [h2] at h
    cases r1 with
    | err m =>
      simp at h
      obtain ⟨h1, _⟩ := h
      subst h1
      simp [EvalResult.completed] at hok
    | timeout =>
      simp at h
      obtain ⟨h1, _⟩ := h
      subst h1
      simp [EvalResult.completed] at hok
    | val w =>
      have hB := hr right cA (.val w) cB h2 (by simp [EvalResult.completed])
      simp at h
      obtain ⟨_, hc⟩ := h
      subst hc
      omega
    | nul =>
      have hB := hr right cA .nul cB h2 (by simp [EvalResult.completed])
      simp at h
      obtain ⟨_, hc⟩ := h
      subst hc
      omega
  | nul =>
    have hA := hr left ctx .nul cA hl (by simp [EvalResult.completed])
    simp only at h
    rcases h2 : r right cA with ⟨r1, cB⟩
    simp only [h2] at h
    cases r1 with
    | err m =>
      simp at h
      obtain ⟨h1, _⟩ := h
      subst h1
      simp [EvalResult.completed] at hok
    | timeout =>
      simp at h
      obtain ⟨h1, _⟩ := h
      subst h1
      simp [EvalResult.completed] at hok
    | val w =>
      have hB := hr right cA (.val w) cB h2 (by simp [EvalResult.completed])
      simp at h
      obtain ⟨_, hc⟩ := h
      subst hc
      omega
    | nul =>
      have hB := hr right cA .nul cB h2 (by simp [EvalResult.completed])
      simp at h
      obtain ⟨_, hc⟩ := h
      subst hc
      omega

/-- Helper: the whole `calc` dispatch is balanced for any balanced resolver,
whenever it completes without a thrown error. -/
theorem calcDispatch_balanced (r : Resolver)
    (hr : ∀ node ctx res ctx2, r node ctx = (res, ctx2) →
      res.completed = true → ctx2.pushes + ctx.pops = ctx.pushes + ctx2.pops) :
    ∀ (node : CssNode) (ctx : CssContext) (res : EvalResult)
      (ctx2 : CssContext),
      CssNode.calcDispatch r node ctx = (res, ctx2) →
      res.completed = true →
      ctx2.pushes + ctx.pops = ctx.pushes + ctx2.pops := by
  intro node ctx res ctx2 h hok
  cases node with
  | passthrough s =>
    simp [CssNode.calcDispatch] at h
    rw [h.2]
  | concat arr =>
    simp only [CssNode.calcDispatch] at h
    rcases he : CssConcatNode.calcElements r arr ctx with ⟨res2, cB⟩
    have hB := calcElements_balanced r hr arr ctx res2 cB he
    cases res2 <;> simp [CssConcatNode.calc, he] at h <;>
      obtain ⟨h1, h2⟩ := h <;> subst h2
    · exact hB (by simp [ArgsResult.completed])
    · exact hB (by simp [ArgsResult.completed])
    · subst h1; simp [EvalResult.completed] at hok
    · subst h1; simp [EvalResult.completed] at hok
  | url u =>
    simp [CssNode.calcDispatch, CssUrlNode.calc] at h
    rw [← h.2]
  | numeric x =>
    simp [CssNode.calcDispatch] at h
    rw [h.2]
  | func name args dims =>
    simp only [CssNode.calcDispatch] at h
    rcases he : CssFuncNode.calcArgs r dims 0 args ctx with ⟨res2, cB⟩
    have hB := calcArgs_balanced r hr dims args 0 ctx res2 cB he
    cases res2 <;> simp [CssFuncNode.calc, he] at h <;>
      obtain ⟨h1, h2⟩ := h <;> subst h2
    · exact hB (by simp [ArgsResult.completed])
    · exact hB (by simp [ArgsResult.completed])
    · subst h1; simp [EvalResult.completed] at hok
    · subst h1; simp [EvalResult.completed] at hok
  | varRef name d =>
    simp only [CssNode.calcDispatch, CssVarNode.calc] at h
    rcases hv : ctx.getVar name with _ | vn
    · rw [hv] at h
      cases d with
      | none =>
        simp at h
        rw [h.2]
      | some dn => exact hr dn ctx res ctx2 h hok
    · rw [hv] at h
      exact hr vn ctx res ctx2 h hok
  | calcWrap e =>
    simp only [CssNode.calcDispatch, CssCalcNode.calc] at h
    exact hr e ctx res ctx2 h hok
  | calcSum l rt op =>
    simp only [CssNode.calcDispatch] at h
    exact calcSum_balanced r hr l rt op ctx res ctx2 h hok
  | calcProduct l rt op =>
    simp only [CssNode.calcDispatch] at h
    exact calcProduct_balanced r hr l rt op ctx res ctx2 h hok

/-- Helper: `resolve` is balanced at every fuel, whenever it completes
without a thrown error. -/
theorem resolve_balanced :
    ∀ (fuel : Nat) (node : CssNode) (ctx : CssContext) (res : EvalResult)
      (ctx2 : CssContext),
      CssNode.resolve fuel node ctx = (res, ctx2) →
      res.completed = true →
      ctx2.pushes + ctx.pops = ctx.pushes + ctx2.pops := by
  intro fuel
  induction fuel with
  | zero =>
    intro node ctx res ctx2 h hok
    simp [CssNode.resolve] at h
    obtain ⟨h1, _⟩ := h
    subst h1
    simp [EvalResult.completed] at hok
  | succ fuel ih =>
    intro node ctx res ctx2 h hok
    by_cases hc : node.isConst
    · simp [CssNode.resolve, hc] at h
      rw [h.2]
    · simp only [CssNode.resolve, hc, if_neg, Bool.false_eq_true,
        if_false] at h
      exact calcDispatch_balanced (CssNode.resolve fuel) ih node ctx res ctx2
        h hok

/-- C7: for every `FunctionCall` evaluation (`CssFuncNode.calc` with the
recursive resolver at any fuel) that completes without a fatal error — a
value or a `null`, including the short-circuit when an argument resolves to
`null` — the number of `pushDimension` calls made on the context equals the
number of `popDimension` calls: the deltas of the ghost counters coincide. -/
theorem C7_dimension_stack_balance (fuel : Nat) (name : String)
    (args : List CssNode) (dims : Option (List String)) (ctx : CssContext)
    (res : EvalResult) (ctx2 : CssContext)
    (h : CssFuncNode.calc (CssNode.resolve fuel) name args dims ctx =
      (res, ctx2))
    (hok : res.completed = true) :
    ctx2.pushes + ctx.pops = ctx.pushes + ctx2.pops := by
  rcases he : CssFuncNode.calcArgs (CssNode.resolve fuel) dims 0 args ctx
    with ⟨res2, cB⟩
  have hB := calcArgs_balanced (CssNode.resolve fuel) (resolve_balanced fuel)
    dims args 0 ctx res2 cB he
  cases res2 <;> simp [CssFuncNode.calc, he] at h <;>
    obtain ⟨h1, h2⟩ := h <;> subst h2
  · exact hB (by simp [ArgsResult.completed])
  · exact hB (by simp [ArgsResult.completed])
  · subst h1; simp [EvalResult.completed] at hok
  · subst h1; simp [EvalResult.completed] at hok

/-- Witness for C7: evaluating `translatex(var(--missing))` with dimension
tags `[w]` pushes once, pops once, and short-circuits to `null`; the push
and pop deltas agree. -/
theorem C7_witness :
    (CssFuncNode.calc (CssNode.resolve 1) "translateX"
        [CssVarNode "--missing" none] (some ["w"]) ctx0).2.pushes + ctx0.pops =
    ctx0.pushes +
      (CssFuncNode.calc (CssNode.resolve 1) "translateX"
        [CssVarNode "--missing" none] (some ["w"]) ctx0).2.pops :=
  C7_dimension_stack_balance 1 "translateX" [CssVarNode "--missing" none]
    (some ["w"]) ctx0
    (CssFuncNode.calc (CssNode.resolve 1) "translateX"
      [CssVarNode "--missing" none] (some ["w"]) ctx0).1
    (CssFuncNode.calc (CssNode.resolve 1) "translateX"
      [CssVarNode "--missing" none] (some ["w"]) ctx0).2
    rfl
    (by simp [CssFuncNode.calc, CssFuncNode.calcArgs, CssVarNode,
      CssNode.resolve, CssNode.isConst, CssNode.calcDispatch, CssVarNode.calc,
      ctx0, CssContext.pushDimension, CssContext.popDimension,
      EvalResult.completed])

mutual
/-- Helper: a constant tree contains no `calc()` wrapper node (the wrapper is
never constant, and constancy of concatenations and calls is the conjunction
over their children). -/
theorem isConst_hasCalcNode :
    ∀ n : CssNode, n.isConst = true → n.hasCalcNode = false
  | .passthrough _, _ => by simp [CssNode.hasCalcNode]
  | .concat arr, h => by
    simp only [CssNode.isConst] at h
    simp [CssNode.hasCalcNode, allConst_listHasCalcNode arr h]
  | .url _, _ => by simp [CssNode.hasCalcNode]
  | .numeric _, _ => by simp [CssNode.hasCalcNode]
  | .func _ args _, h => by
    simp only [CssNode.isConst] at h
    simp [CssNode.hasCalcNode, allConst_listHasCalcNode args h]
  | .varRef _ _, h => by simp [CssNode.isConst] at h
  | .calcWrap _, h => by simp [CssNode.isConst] at h
  | .calcSum _ _ _, h => by simp [CssNode.isConst] at h
  | .calcProduct _ _ _, h => by simp [CssNode.isConst] at h

/-- Helper: a list of constant trees contains no `calc()` wrapper node. -/
theorem allConst_listHasCalcNode :
    ∀ arr : List CssNode, CssNode.allConst arr = true →
      CssNode.listHasCalcNode arr = false
  | [], _ => by simp [CssNode.listHasCalcNode]
  | x :: xs, h => by
    simp only [CssNode.allConst, Bool.and_eq_true] at h
    simp [CssNode.listHasCalcNode, isConst_hasCalcNode x h.1,
      allConst_listHasCalcNode xs h.2]
end

/-- Helper: a value produced by `CssCalcSumNode.finish` is a numeric leaf,
hence contains no `calc()` wrapper node. -/
theorem calcSum_combine_noCalc (ln rn : CssNumeric) (op : String)
    (ctx : CssContext) (v : CssNode)
    (h : CssCalcSumNode.combine ln rn op ctx = .val v) :
    v.hasCalcNode = false := by
  unfold CssCalcSumNode.combine at h
  rcases hs : CssCalcSumNode.substitutePercent ln rn ctx with m | ⟨l0, r0⟩ <;>
    simp only [hs] at h
  · simp at h
  · rcases hn : CssCalcSumNode.normalizeUnits l0 r0 ctx with m | ⟨l, rr⟩ <;>
      simp only [hn] at h
    · simp at h
    · simp only [EvalResult.val.injEq] at h
      subst h
      simp [CssNode.hasCalcNode]

/-- Helper: a value produced by `CssCalcSumNode.finish` is a numeric leaf,
hence contains no `calc()` wrapper node. -/
theorem calcSum_finish_noCalc (lval rval : EvalResult) (op : String)
    (ctx : CssContext) (v : CssNode)
    (h : CssCalcSumNode.finish lval rval op ctx = .val v) :
    v.hasCalcNode = false := by
  unfold CssCalcSumNode.finish at h
  split at h
  · simp at h
  · simp at h
  · exact calcSum_combine_noCalc _ _ _ _ _ h
  · simp at h

/-- Helper: a value produced by `CssCalcProductNode.finish` is a numeric
leaf, hence contains no `calc()` wrapper node. -/
theorem calcProduct_finish_noCalc (lval rval : EvalResult) (op : String)
    (v : CssNode)
    (h : CssCalcProductNode.finish lval rval op = .val v) :
    v.hasCalcNode = false := by
  unfold CssCalcProductNode.finish CssCalcProductNode.combine at h
  repeat' split at h
  all_goals
    first
    | (simp only [EvalResult.val.injEq] at h
       subst h
       simp [CssNode.hasCalcNode])
    | simp at h

/-- Helper: the element loop of `CssConcatNode.calc` collects only values
free of `calc()` wrapper nodes, for any resolver whose values are free of
them. -/
theorem calcElements_noCalc (r : Resolver)
    (hr : ∀ node ctx v ctx2, r node ctx = (.val v, ctx2) →
      v.hasCalcNode = false) :
    ∀ (arr : List CssNode) (ctx : CssContext) (xs : List CssNode)
      (ctx2 : CssContext),
      CssConcatNode.calcElements r arr ctx = (.ok xs, ctx2) →
      CssNode.listHasCalcNode xs = false := by
  intro arr
  induction arr with
  | nil =>
    intro ctx xs ctx2 h
    simp [CssConcatNode.calcElements] at h
    rw [h.1]
    simp [CssNode.listHasCalcNode]
  | cons node rest ih =>
    intro ctx xs ctx2 h
    rcases hv : r node ctx with ⟨r1, cA⟩
    simp only [CssConcatNode.calcElements, hv] at h
    cases r1 with
    | val v =>
      simp only at h
      rcases hrec : CssConcatNode.calcElements r rest cA with ⟨res2, cB⟩
      cases res2 <;> simp [hrec] at h
      obtain ⟨h1, _⟩ := h
      rw [← h1]
      simp [CssNode.listHasCalcNode, hr node ctx v cA hv, ih cA _ cB hrec]
    | nul => simp at h
    | err m => simp at h
    | timeout => simp at h

/-- Helper: the argument loop of `CssFuncNode.calc` collects only values free
of `calc()` wrapper nodes, for any resolver whose values are free of them. -/
theorem calcArgs_noCalc (r : Resolver)
    (hr : ∀ node ctx v ctx2, r node ctx = (.val v, ctx2) →
      v.hasCalcNode = false)
    (dims : Option (List String)) :
    ∀ (arr : List CssNode) (i : Nat) (ctx : CssContext) (xs : List CssNode)
      (ctx2 : CssContext),
      CssFuncNode.calcArgs r dims i arr ctx = (.ok xs, ctx2) →
      CssNode.listHasCalcNode xs = false := by
  intro arr
  induction arr with
  | nil =>
    intro i ctx xs ctx2 h
    simp [CssFuncNode.calcArgs] at h
    rw [h.1]
    simp [CssNode.listHasCalcNode]
  | cons node rest ih =>
    intro i ctx xs ctx2 h
    rcases hd : dims.bind (fun ds => ds.get? i) with _ | d
    all_goals simp only [CssFuncNode.calcArgs, hd] at h
    · rcases hv : r node ctx with ⟨r1, cA⟩
      simp only [hv] at h
      cases r1 with
      | val v =>
        simp only at h
        rcases hrec : CssFuncNode.calcArgs r dims (i + 1) rest cA
          with ⟨res2, cB⟩
        cases res2 <;> simp [hrec] at h
        obtain ⟨h1, _⟩ := h
        rw [← h1]
        simp [CssNode.listHasCalcNode, hr node ctx v cA hv,
          ih (i + 1) cA _ cB hrec]
      | nul => simp at h
      | err m => simp at h
      | timeout => simp at h
    · rcases hv : r node (ctx.pushDimension d) with ⟨r1, cA⟩
      simp only [hv] at h
      cases r1 with
      | val v =>
        simp only at h
        rcases hrec : CssFuncNode.calcArgs r dims (i + 1) rest cA.popDimension
          with ⟨res2, cB⟩
        cases res2 <;> simp [hrec] at h
        obtain ⟨h1, _⟩ := h
        rw [← h1]
        simp [CssNode.listHasCalcNode, hr node (ctx.pushDimension d) v cA hv,
          ih (i + 1) cA.popDimension _ cB hrec]
      | nul => simp at h
      | err m => simp at h
      | timeout => simp at h

/-- Helper: every value produced by the `calc` dispatch is free of `calc()`
wrapper nodes, for any resolver whose values are free of them. -/
theorem calcDispatch_noCalc (r : Resolver)
    (hr : ∀ node ctx v ctx2, r node ctx = (.val v, ctx2) →
      v.hasCalcNode = false) :
    ∀ (node : CssNode) (ctx : CssContext) (v : CssNode) (ctx2 : CssContext),
      CssNode.calcDispatch r node ctx = (.val v, ctx2) →
      v.hasCalcNode = false := by
  intro node ctx v ctx2 h
  cases node with
  | passthrough s =>
    simp [CssNode.calcDispatch] at h
    rw [← h.1]
    simp [CssNode.hasCalcNode]
  | concat arr =>
    simp only [CssNode.calcDispatch] at h
    rcases he : CssConcatNode.calcElements r arr ctx with ⟨res2, cB⟩
    cases res2 <;> simp [CssConcatNode.calc, he] at h
    obtain ⟨h1, _⟩ := h
    rw [← h1]
    simp [CssNode.hasCalcNode]
    exact calcElements_noCalc r hr arr ctx _ cB he
  | url u =>
    simp [CssNode.calcDispatch, CssUrlNode.calc] at h
    rw [← h.1]
    simp [CssNode.hasCalcNode]
  | numeric x =>
    simp [CssNode.calcDispatch] at h
    rw [← h.1]
    simp [CssNode.hasCalcNode]
  | func name args dims =>
    simp only [CssNode.calcDispatch] at h
    rcases he : CssFuncNode.calcArgs r dims 0 args ctx with ⟨res2, cB⟩
    cases res2 <;> simp [CssFuncNode.calc, he] at h
    obtain ⟨h1, _⟩ := h
    rw [← h1]
    simp [CssFuncNode, CssNode.hasCalcNode]
    exact calcArgs_noCalc r hr dims args 0 ctx _ cB he
  | varRef name d =>
    simp only [CssNode.calcDispatch, CssVarNode.calc] at h
    rcases hv : ctx.getVar name with _ | vn
    · rw [hv] at h
      cases d with
      | none => simp at h
      | some dn => exact hr dn ctx v ctx2 h
    · rw [hv] at h
      exact hr vn ctx v ctx2 h
  | calcWrap e =>
    simp only [CssNode.calcDispatch, CssCalcNode.calc] at h
    exact hr e ctx v ctx2 h
  | calcSum l rt op =>
    simp only [CssNode.calcDispatch] at h
    rcases hl : r l ctx with ⟨l1, cA⟩
    simp only [CssCalcSumNode.calc, hl] at h
    cases l1 with
    | err m => simp at h
    | timeout => simp at h
    | val w =>
      simp only at h
      rcases h2 : r rt cA with ⟨r1, cB⟩
      simp only [h2] at h
      cases r1 <;> simp at h
      · exact calcSum_finish_noCalc _ _ _ _ _ h.1
      · exact calcSum_finish_noCalc _ _ _ _ _ h.1
    | nul =>
      simp only at h
      rcases h2 : r rt cA with ⟨r1, cB⟩
      simp only [h2] at h
      cases r1 <;> simp at h
      · exact calcSum_finish_noCalc _ _ _ _ _ h.1
      · exact calcSum_finish_noCalc _ _ _ _ _ h.1
  | calcProduct l rt op =>
    simp only [CssNode.calcDispatch] at h
    rcases hl : r l ctx with ⟨l1, cA⟩
    simp only [CssCalcProductNode.calc, hl] at h
    cases l1 with
    | err m => simp at h
    | timeout => simp at h
    | val w =>
      simp only at h
      rcases h2 : r rt cA with ⟨r1, cB⟩
      simp only [h2] at h
      cases r1 <;> simp at h
      · exact calcProduct_finish_noCalc _ _ _ _ h.1
      · exact calcProduct_finish_noCalc _ _ _ _ h.1
    | nul =>
      simp only at h
      rcases h2 : r rt cA with ⟨r1, cB⟩
      simp only [h2] at h
      cases r1 <;> simp at h
      · exact calcProduct_finish_noCalc _ _ _ _ h.1
      · exact calcProduct_finish_noCalc _ _ _ _ h.1

/-- Helper: every value produced by `resolve` at any fuel is free of `calc()`
wrapper nodes. -/
theorem resolve_noCalc :
    ∀ (fuel : Nat) (node : CssNode) (ctx : CssContext) (v : CssNode)
      (ctx2 : CssContext),
      CssNode.resolve fuel node ctx = (.val v, ctx2) →
      v.hasCalcNode = false := by
  intro fuel
  induction fuel with
  | zero =>
    intro node ctx v ctx2 h
    simp [CssNode.resolve] at h
  | succ fuel ih =>
    intro node ctx v ctx2 h
    by_cases hc : node.isConst
    · simp [CssNode.resolve, hc] at h
      rw [← h.1]
      exact isConst_hasCalcNode node hc
    · simp only [CssNode.resolve, hc, if_neg, Bool.false_eq_true,
        if_false] at h
      exact calcDispatch_noCalc (CssNode.resolve fuel) ih node ctx v ctx2 h

/-- C9 amended: resolving a Calc node equals the resolution of the wrapped
inner expression (the `calc(...)` wrapper is removed during evaluation, at
the cost of one unit of fuel in the embedding), and a resolved output tree
never contains a Calc node.  (The serialization of a resolved tree can still
contain the raw substring `calc(` inside passthrough or url text, per the
counterexample.) -/
theorem C9_calc_unwrap_amended :
    (∀ (fuel : Nat) (e : CssNode) (ctx : CssContext),
      CssNode.resolve (fuel + 1) (CssCalcNode e) ctx =
        CssNode.resolve fuel e ctx) ∧
    (∀ (fuel : Nat) (node : CssNode) (ctx : CssContext) (v : CssNode)
      (ctx2 : CssContext),
      CssNode.resolve fuel node ctx = (.val v, ctx2) →
      v.hasCalcNode = false) := by
  constructor
  · intro fuel e ctx
    simp [CssNode.resolve, CssCalcNode, CssNode.isConst, CssNode.calcDispatch,
      CssCalcNode.calc]
  · exact resolve_noCalc

/-- Witness for C9's amended claim: resolving `calc(5px)` unwraps to the
resolution of `5px`, and the value resolved from `calc(5px)` contains no
Calc node. -/
theorem C9_amended_witness :
    CssNode.resolve 2 (CssCalcNode (CssLengthNode 5 "px")) ctx0 =
      CssNode.resolve 1 (CssLengthNode 5 "px") ctx0 ∧
    (CssLengthNode 5 "px").hasCalcNode = false :=
  ⟨C9_calc_unwrap_amended.1 1 (CssLengthNode 5 "px") ctx0,
   C9_calc_unwrap_amended.2 2 (CssCalcNode (CssLengthNode 5 "px")) ctx0
     (CssLengthNode 5 "px") ctx0
     (by simp [CssNode.resolve, CssCalcNode, CssLengthNode, CssNode.isConst,
       CssNode.calcDispatch, CssCalcNode.calc, jsToLowerCase])⟩
